import Mathlib

/-!
Verification of the Admission & Priority subsystem of the nimble-miners
repository (`model/lib/blacklist.py`, `nimminers/lib/priority.py`).

Shallow embedding conventions:
* A caller identity (hotkey) and a request fingerprint are opaque strings.
* Wall-clock times, stakes and priorities are rationals (`ℚ`); Python floats
  are not bit-modelled.
* The network snapshot (`self.megastring`) is `Option Megastring`; `none`
  models the not-yet-synced state.
* `self.request_timestamps` (a Python dict keyed by hotkey) is a function
  `Identity → Option (List ℚ)`; `self.request_cache` (a dict keyed by the
  sha256 fingerprint, iterated by the sweep) is an association list.
* Python exceptions are modelled by `Except PyErr`: an `AttributeError`
  from dereferencing a `None` megastring, an `IndexError` from an
  out-of-range subscript, a `ZeroDivisionError` from a zero divisor.
* `time.time()` is passed in as an explicit `now` argument; the current
  block height (`self.megastring.block`) and the sha256 fingerprint of the
  serialized messages are passed to the cache step as explicit arguments.
-/

/-- A caller identity (`nucleon.boson.hotkey`). -/
abbrev Identity := String

/-- The sha256 hex digest of the serialized request messages. -/
abbrev Fingerprint := String

/-- Python runtime errors that the embedded code can raise. -/
inductive PyErr where
  /-- `AttributeError`: attribute access on `None` (the megastring). -/
  | attributeNone : PyErr
  /-- `IndexError`: sequence subscript out of range. -/
  | indexError : PyErr
  /-- `ZeroDivisionError`: division by zero. -/
  | zeroDivisionError : PyErr
  deriving DecidableEq, Repr

/-- The network snapshot (`self.megastring`): hotkeys in UID order, the
stake vector `S`, the validator-permit vector, and the current block. -/
structure Megastring where
  block : ℕ
  hotkeys : List Identity
  S : List ℚ
  validator_permit : List Bool
  deriving DecidableEq

/-- `self.config.miner.blacklist`. -/
structure BlacklistConfig where
  whitelist : List Identity
  blacklist : List Identity
  allow_non_registered : Bool
  force_validator_permit : Bool
  min_request_period : ℚ
  request_cache_block_span : ℕ
  deriving DecidableEq

/-- `self.config.miner.priority`. -/
structure PriorityConfig where
  default : ℚ
  time_stake_multiplicate : ℚ
  len_request_timestamps : ℕ
  deriving DecidableEq

/-- `self.config.miner`. -/
structure MinerConfig where
  blacklist : BlacklistConfig
  priority : PriorityConfig
  deriving DecidableEq

/-- The mutable miner state visible to the subsystem: the snapshot, the
per-hotkey timestamp histories, and the (static) configuration.  The
request cache is threaded separately through `is_request_in_cache`. -/
structure MinerState where
  megastring : Option Megastring
  request_timestamps : Identity → Option (List ℚ)
  config : MinerConfig

/-- Lookup in an association list modelling a Python dict keyed by
fingerprint (first binding wins, as dict keys are unique). -/
def lookupFP (fp : Fingerprint) : List (Fingerprint × ℕ) → Option ℕ
  | [] => none
  | e :: rest => if e.1 = fp then some e.2 else lookupFP fp rest

/-- `is_request_in_cache` (`model/lib/blacklist.py`, lines 26–55), as a
pure step on the cache: the hit test against the cache as found, the
insertion `request_cache[request_key] = current_block` on a miss, then the
sweep deleting every entry with
`block + request_cache_block_span < current_block`.  Returns
`(should_blacklist, new cache)`. -/
def is_request_in_cache (span : ℕ) (current_block : ℕ)
    (cache : List (Fingerprint × ℕ)) (request_key : Fingerprint) :
    Bool × List (Fingerprint × ℕ) :=
  let should_blacklist := (lookupFP request_key cache).isSome
  let cache1 := if should_blacklist then cache else cache ++ [(request_key, current_block)]
  let cache2 := cache1.filter (fun e => !(decide (e.2 + span < current_block)))
  (should_blacklist, cache2)

/-- The rate-limit rejection reason (`model/lib/blacklist.py`, line 90):
`f"{hotkey} request frequency exceeded {count} requests in {minutes} minutes."`. -/
def rate_limit_reason (hotkey : Identity) (count : ℕ) (minutes : ℚ) : String :=
  hotkey ++ " request frequency exceeded " ++ toString count ++
    " requests in " ++ toString minutes ++ " minutes."

/-- The tail of `default_blacklist` (`model/lib/blacklist.py`, lines
84–94): the request-period (rate-limit) check, reached once the whitelist,
blacklist, registration and validator-permit checks have all fallen
through.  `history[0]` on an empty history is an `IndexError`. -/
def default_blacklist_period (s : MinerState) (hotkey : Identity) (now : ℚ) :
    Except PyErr (Bool × String) :=
  match s.request_timestamps hotkey with
  | some history =>
    match history[0]? with
    | none => .error .indexError
    | some oldest =>
      if now - oldest < s.config.blacklist.min_request_period * 60 then
        .ok (true, rate_limit_reason hotkey history.length
          s.config.blacklist.min_request_period)
      else .ok (false, "passed blacklist")
  | none => .ok (false, "passed blacklist")

/-- `default_blacklist` (`model/lib/blacklist.py`, lines 58–94).  Returns
`(should_blacklist, reason)`; the request is accepted when the first
component is `false`.  The checks run in source order: whitelist,
blacklist, registration, validator permit, request period.  Note that the
validator-permit branch dereferences `self.megastring.hotkeys` without a
`None` guard (line 77), and the permit lookup subscripts
`validator_permit[uid]` — both faithfully modelled as `PyErr`s. -/
def default_blacklist (s : MinerState) (hotkey : Identity) (now : ℚ) :
    Except PyErr (Bool × String) :=
  if hotkey ∈ s.config.blacklist.whitelist then
    .ok (false, "whitelisted hotkey")
  else if hotkey ∈ s.config.blacklist.blacklist then
    .ok (true, "blacklisted hotkey")
  else if !s.config.blacklist.allow_non_registered &&
      (match s.megastring with
        | none => false
        | some m => !(decide (hotkey ∈ m.hotkeys))) then
    .ok (true, "hotkey not registered")
  else if s.config.blacklist.force_validator_permit then
    match s.megastring with
    | none => .error .attributeNone
    | some m =>
      if hotkey ∈ m.hotkeys then
        match m.validator_permit[m.hotkeys.indexOf hotkey]? with
        | none => .error .indexError
        | some permit =>
          if permit = false then .ok (true, "validator permit required")
          else default_blacklist_period s hotkey now
      else .ok (true, "validator permit required, but hotkey not registered")
  else default_blacklist_period s hotkey now

/-- The observable outcome of calling the subclass blacklist override
`func(nucleon)` (`model/lib/blacklist.py`, lines 105–114).  The dispatcher
duck-types the returned value: a value with `__len__` is unpacked into
`(does_blacklist, reason)` (a `ValueError` from unpacking a value whose
length is not 2 lands in the generic `except` clause); a value without
`__len__` — a bare boolean or `None` — becomes `does_blacklist` with the
reason `"no reason provided"`.  `raiseNotImplemented` is the
`NotImplementedError` signal; `raiseOther` is any other exception. -/
inductive CustomResult where
  /-- A sized value unpacking into `(does_blacklist, reason)`;
  `does_blacklist` may itself be `None` (`Option.none`). -/
  | pair (does_blacklist : Option Bool) (reason : String) : CustomResult
  /-- A value without `__len__`: a bare boolean, or bare `None`. -/
  | bare (does_blacklist : Option Bool) : CustomResult
  /-- A sized value that does not unpack into two parts (`ValueError`). -/
  | badLen : CustomResult
  /-- The function raised `NotImplementedError`. -/
  | raiseNotImplemented : CustomResult
  /-- The function raised some other exception. -/
  | raiseOther : CustomResult
  deriving DecidableEq, Repr

/-- The `blacklist` dispatcher (`model/lib/blacklist.py`, lines 97–140),
with the override call's outcome passed in as `res`.  `NotImplementedError`
and any other exception are caught and replaced by `default_blacklist`;
the `finally` block replaces a `None` `does_blacklist` by
`default_blacklist` as well.  When `default_blacklist` itself raises
inside the `except` handler, `does_blacklist` is still `None` when the
`finally` block runs, so `default_blacklist` is evaluated again there and
its error propagates to the caller — in every exception path the result,
value or error, is exactly that of `default_blacklist`. -/
def blacklist (s : MinerState) (res : CustomResult) (hotkey : Identity)
    (now : ℚ) : Except PyErr (Bool × String) :=
  match res with
  | .pair (some b) reason => .ok (b, reason)
  | .pair none _ => default_blacklist s hotkey now
  | .bare (some b) => .ok (b, "no reason provided")
  | .bare none => default_blacklist s hotkey now
  | .badLen => default_blacklist s hotkey now
  | .raiseNotImplemented => default_blacklist s hotkey now
  | .raiseOther => default_blacklist s hotkey now

/-- `record_request_timestamps` (`nimminers/lib/priority.py`, lines
25–35): a missing history is created as `[0] * len_request_timestamps`,
the current time is appended, and the history is truncated to
`history[-len_request_timestamps:]`.  Python's `l[-n:]` is the whole list
when `n = 0` and the last `min n l.length` elements when `n ≥ 1`. -/
def record_request_timestamps (s : MinerState) (hotkey : Identity)
    (now : ℚ) : MinerState :=
  let timestamp_length := s.config.priority.len_request_timestamps
  let history :=
    match s.request_timestamps hotkey with
    | none => List.replicate timestamp_length 0
    | some h => h
  let appended := history ++ [now]
  let truncated :=
    if timestamp_length = 0 then appended
    else appended.drop (appended.length - timestamp_length)
  { s with request_timestamps :=
      fun k => if k = hotkey then some truncated else s.request_timestamps k }

/-- The priority formula of `default_priority` (`nimminers/lib/priority.py`,
lines 54–58): `period_scale = period / (time_stake_multiplicate * 60)`;
`priority = max(period_scale, 1) * stake_amount`. -/
def stake_priority (period : ℚ) (time_stake_multiplicate : ℚ)
    (stake_amount : ℚ) : ℚ :=
  max (period / (time_stake_multiplicate * 60)) 1 * stake_amount

/-- `default_priority` (`nimminers/lib/priority.py`, lines 38–65).
Returns the priority together with the state updated by
`record_request_timestamps`.  An unregistered caller (or an absent
megastring) gets `config.miner.priority.default` via the early `return`
on line 46, which skips the `record_request_timestamps` call on line 63.
`history[-10]` on a history shorter than 10 is an `IndexError`;
`S[uid]` out of range is an `IndexError`; a zero
`time_stake_multiplicate * 60` divisor is a `ZeroDivisionError`. -/
def default_priority (s : MinerState) (hotkey : Identity) (now : ℚ) :
    Except PyErr (ℚ × MinerState) :=
  let registered :=
    match s.megastring with
    | none => false
    | some m => decide (hotkey ∈ m.hotkeys)
  if registered = false then .ok (s.config.priority.default, s)
  else
    match s.megastring with
    | none => .error .attributeNone
    | some m =>
      match m.S[m.hotkeys.indexOf hotkey]? with
      | none => .error .indexError
      | some stake_amount =>
        match s.request_timestamps hotkey with
        | some history =>
          if history.length < 10 then .error .indexError
          else
            match history[history.length - 10]? with
            | none => .error .indexError
            | some t10 =>
              if s.config.priority.time_stake_multiplicate * 60 = 0 then
                .error .zeroDivisionError
              else
                .ok (stake_priority (now - t10)
                      s.config.priority.time_stake_multiplicate stake_amount,
                    record_request_timestamps s hotkey now)
        | none =>
          .ok (s.config.priority.default, record_request_timestamps s hotkey now)

/-- The observable outcome of calling the subclass priority override
`func(nucleon)` (`nimminers/lib/priority.py`, line 73). -/
inductive PriorityCustomResult where
  /-- A returned value: a float, or `None`. -/
  | value (p : Option ℚ) : PriorityCustomResult
  /-- The function raised `NotImplementedError`. -/
  | raiseNotImplemented : PriorityCustomResult
  /-- The function raised some other exception. -/
  | raiseOther : PriorityCustomResult
  deriving DecidableEq, Repr

/-- The `priority` dispatcher (`nimminers/lib/priority.py`, lines 68–89),
with the override call's outcome passed in as `res`.
`NotImplementedError` is replaced by `default_priority` in its handler;
any other exception leaves `priority` as `None`, so the `finally` block
substitutes `default_priority`; a returned `None` is likewise replaced in
the `finally` block.  In each of these paths `default_priority` runs
exactly once, so its result — value, state update and error alike — is
the dispatcher's result. -/
def priority (s : MinerState) (res : PriorityCustomResult) (hotkey : Identity)
    (now : ℚ) : Except PyErr (ℚ × MinerState) :=
  match res with
  | .value (some p) => .ok (p, s)
  | .value none => default_priority s hotkey now
  | .raiseNotImplemented => default_priority s hotkey now
  | .raiseOther => default_priority s hotkey now

/-! ### Concrete states used by witnesses and counterexamples -/

/-- A configuration with the repository's default values
(`model/lib/config.py`): `min_request_period = 5` minutes,
`time_stake_multiplicate = 10` minutes, `len_request_timestamps = 50`,
default priority `0`, plus a one-element whitelist and blacklist. -/
def testConfig : MinerConfig :=
  { blacklist :=
      { whitelist := ["w"], blacklist := ["b"],
        allow_non_registered := true, force_validator_permit := false,
        min_request_period := 5, request_cache_block_span := 7200 },
    priority :=
      { default := 0, time_stake_multiplicate := 10,
        len_request_timestamps := 50 } }

/-- A state before the first network sync: no megastring, no recorded
timestamps. -/
def stateNoSnapshot : MinerState :=
  { megastring := none, request_timestamps := fun _ => none,
    config := testConfig }

/-- A state before the first network sync with
`force_validator_permit = true` and `allow_non_registered = false`. -/
def stateNoSnapshotPermit : MinerState :=
  { megastring := none, request_timestamps := fun _ => none,
    config :=
      { blacklist :=
          { whitelist := [], blacklist := [],
            allow_non_registered := false, force_validator_permit := true,
            min_request_period := 5, request_cache_block_span := 7200 },
        priority := testConfig.priority } }

/-- A snapshot with one registered hotkey `"r"` holding stake `10`. -/
def msA : Megastring :=
  { block := 0, hotkeys := ["r"], S := [10], validator_permit := [true] }

/-- A synced state in which `"r"` is registered and has a ten-entry
sentinel history. -/
def stateA : MinerState :=
  { megastring := some msA,
    request_timestamps :=
      fun k => if k = "r" then some (List.replicate 10 0) else none,
    config := testConfig }

/-- A synced state in which `"r"` is registered but no timestamps are
recorded yet. -/
def stateB : MinerState :=
  { megastring := some msA, request_timestamps := fun _ => none,
    config := testConfig }

/-! ### Helper lemmas -/

/-- `lookupFP` misses exactly on the lists with no binding for the key. -/
theorem lookupFP_eq_none_iff (fp : Fingerprint) (l : List (Fingerprint × ℕ)) :
    lookupFP fp l = none ↔ ∀ e ∈ l, e.1 ≠ fp := by
  induction l with
  | nil => simp [lookupFP]
  | cons e rest ih =>
    by_cases he : e.1 = fp
    · simp [lookupFP, he]
    · simp [lookupFP, he, ih]

/-- In a cache with pairwise-distinct keys (a Python dict), every binding
of a key carries the value `lookupFP` finds for it. -/
theorem lookupFP_nodup_unique (fp : Fingerprint) (l : List (Fingerprint × ℕ))
    (hnd : (l.map Prod.fst).Nodup) (b : ℕ) (hb : lookupFP fp l = some b)
    (x : ℕ) (hx : (fp, x) ∈ l) : x = b := by
  induction l with
  | nil => cases hx
  | cons e rest ih =>
    rw [List.map_cons, List.nodup_cons] at hnd
    by_cases he : e.1 = fp
    · rw [lookupFP, if_pos he] at hb
      cases hx with
      | head => cases hb; rfl
      | tail _ hmem =>
        exact absurd (he ▸ List.mem_map_of_mem Prod.fst hmem) hnd.1
    · rw [lookupFP, if_neg he] at hb
      cases hx with
      | head => exact absurd rfl he
      | tail _ hmem => exact ih hnd.2 hb hmem

/-- Python's `(l + [now])[-n:]` keeps the appended element last. -/
theorem truncate_getLast (l : List ℚ) (now : ℚ) (n : ℕ) :
    (if n = 0 then l ++ [now]
     else (l ++ [now]).drop ((l ++ [now]).length - n)).getLast? = some now := by
  by_cases h0 : n = 0
  · simp [h0, List.getLast?_concat]
  · have hle : (l ++ [now]).length - n ≤ l.length := by
      simp only [List.length_append, List.length_cons, List.length_nil]
      omega
    rw [if_neg h0, List.drop_append_of_le_length hle, List.getLast?_concat]

/-- The history `record_request_timestamps` stores for the recorded
hotkey, written out. -/
theorem record_request_timestamps_apply (s : MinerState) (hotkey : Identity)
    (now : ℚ) :
    (record_request_timestamps s hotkey now).request_timestamps hotkey =
      some
        (let n := s.config.priority.len_request_timestamps
         let history :=
           match s.request_timestamps hotkey with
           | none => List.replicate n 0
           | some h => h
         let appended := history ++ [now]
         if n = 0 then appended else appended.drop (appended.length - n)) := by
  unfold record_request_timestamps
  simp

/-- After `record_request_timestamps`, the recorded hotkey has a history
whose last entry is the recorded time. -/
theorem record_request_timestamps_getLast (s : MinerState) (hotkey : Identity)
    (now : ℚ) :
    ∃ history,
      (record_request_timestamps s hotkey now).request_timestamps hotkey =
        some history ∧ history.getLast? = some now := by
  refine ⟨_, record_request_timestamps_apply s hotkey now, ?_⟩
  exact truncate_getLast _ now _

/-! ### Claim theorems -/

/-- C1: `default_blacklist` checks whitelist, blacklist, registration,
validator permit and rate limit in this fixed order, first match deciding:
a whitelisted caller is accepted (`should_blacklist = false`) with reason
`"whitelisted hotkey"` regardless of any other state, and a blacklisted,
non-whitelisted caller is rejected with reason `"blacklisted hotkey"`. -/
theorem default_blacklist_whitelist_blacklist_first (s : MinerState)
    (hotkey : Identity) (now : ℚ) :
    (hotkey ∈ s.config.blacklist.whitelist →
      default_blacklist s hotkey now = .ok (false, "whitelisted hotkey")) ∧
    (hotkey ∉ s.config.blacklist.whitelist →
      hotkey ∈ s.config.blacklist.blacklist →
      default_blacklist s hotkey now = .ok (true, "blacklisted hotkey")) := by
  constructor
  · intro hw
    simp [default_blacklist, hw]
  · intro hw hb
    simp [default_blacklist, hw, hb]

/-- Witness for C1 on a concrete state: `"w"` is whitelisted and
accepted, `"b"` is blacklisted (not whitelisted) and rejected. -/
theorem default_blacklist_whitelist_blacklist_first_witness :
    ("w" ∈ testConfig.blacklist.whitelist ∧
      default_blacklist stateA "w" 0 = .ok (false, "whitelisted hotkey")) ∧
    ("b" ∉ testConfig.blacklist.whitelist ∧
      "b" ∈ testConfig.blacklist.blacklist ∧
      default_blacklist stateA "b" 0 = .ok (true, "blacklisted hotkey")) :=
  ⟨⟨by decide,
    (default_blacklist_whitelist_blacklist_first stateA "w" 0).1 (by decide)⟩,
   ⟨by decide, by decide,
    (default_blacklist_whitelist_blacklist_first stateA "b" 0).2 (by decide)
      (by decide)⟩⟩

/-- C3 (refuting evaluation): with `force_validator_permit` enabled and no
megastring, the `blacklist` entry point does not return a well-formed
result — `default_blacklist` dereferences `self.megastring.hotkeys` on
`None` (line 77 of `model/lib/blacklist.py`), and the `AttributeError`
raised inside the dispatcher's exception handler is re-raised when the
`finally` block re-runs `default_blacklist`, so it propagates to the
caller. -/
theorem blacklist_crashes_without_snapshot_under_permit :
    blacklist stateNoSnapshotPermit .raiseNotImplemented "caller" 0 =
      .error .attributeNone := by
  rfl

/-- C6: a custom admission function that raises (either
`NotImplementedError` or any other exception), returns `None`, returns a
bare `None` first component, or returns an un-unpackable sized value,
yields exactly the result of `default_blacklist`; likewise a custom
priority function that raises or returns `None` yields exactly the result
of `default_priority`, state update included. -/
theorem dispatch_fallback_equiv (s : MinerState) (hotkey : Identity)
    (now : ℚ) (r : String) :
    blacklist s .raiseNotImplemented hotkey now = default_blacklist s hotkey now ∧
    blacklist s .raiseOther hotkey now = default_blacklist s hotkey now ∧
    blacklist s (.pair none r) hotkey now = default_blacklist s hotkey now ∧
    blacklist s (.bare none) hotkey now = default_blacklist s hotkey now ∧
    blacklist s .badLen hotkey now = default_blacklist s hotkey now ∧
    priority s .raiseNotImplemented hotkey now = default_priority s hotkey now ∧
    priority s .raiseOther hotkey now = default_priority s hotkey now ∧
    priority s (.value none) hotkey now = default_priority s hotkey now :=
  ⟨rfl, rfl, rfl, rfl, rfl, rfl, rfl, rfl⟩

/-- C10: a custom admission function returning a bare boolean `b` (a value
without `__len__`) makes the dispatcher return `(b, "no reason provided")`
— for every state, so the default policy is never consulted. -/
theorem blacklist_bare_bool (s : MinerState) (hotkey : Identity) (now : ℚ)
    (b : Bool) :
    blacklist s (.bare (some b)) hotkey now = .ok (b, "no reason provided") :=
  rfl

/-- C4: `default_priority` returns `config.miner.priority.default` when
the megastring is absent or the caller is unregistered, and for a
registered caller with no stored history; for a registered caller with a
history it returns
`max((now − history[len − 10]) / (time_stake_multiplicate * 60), 1) *
S[uid]` where `uid` is the caller's index in the megastring's hotkey
sequence (`history[len − 10]` is Python's `history[-10]`). -/
theorem default_priority_spec (s : MinerState) (hotkey : Identity) (now : ℚ) :
    (s.megastring = none →
      default_priority s hotkey now = .ok (s.config.priority.default, s)) ∧
    (∀ m, s.megastring = some m → hotkey ∉ m.hotkeys →
      default_priority s hotkey now = .ok (s.config.priority.default, s)) ∧
    (∀ m stake_amount, s.megastring = some m → hotkey ∈ m.hotkeys →
      m.S[m.hotkeys.indexOf hotkey]? = some stake_amount →
      s.request_timestamps hotkey = none →
      (default_priority s hotkey now).map Prod.fst =
        .ok s.config.priority.default) ∧
    (∀ m stake_amount history t10,
      s.megastring = some m → hotkey ∈ m.hotkeys →
      m.S[m.hotkeys.indexOf hotkey]? = some stake_amount →
      s.request_timestamps hotkey = some history →
      10 ≤ history.length →
      history[history.length - 10]? = some t10 →
      s.config.priority.time_stake_multiplicate * 60 ≠ 0 →
      (default_priority s hotkey now).map Prod.fst =
        .ok (max ((now - t10) /
              (s.config.priority.time_stake_multiplicate * 60)) 1 *
            stake_amount)) := by
  refine ⟨?_, ?_, ?_, ?_⟩
  · intro h
    simp [default_priority, h]
  · intro m hm hmem
    simp [default_priority, hm, hmem]
  · intro m stake_amount hm hmem hst hts
    simp [default_priority, hm, hmem, hst, hts, Except.map]
  · intro m stake_amount history t10 hm hmem hst hts hlen ht10 hden
    have hnl : ¬ history.length < 10 := Nat.not_lt.mpr hlen
    simp [default_priority, stake_priority, hm, hmem, hst, hts, hnl, ht10,
      hden, Except.map]

/-- Witness for C4: in `stateA`, the registered caller `"r"` with the
ten-entry sentinel history, stake `10` and `time_stake_multiplicate = 10`
gets priority `max((1200 − 0) / 600, 1) · 10` at time `1200`. -/
theorem default_priority_spec_witness :
    stateA.request_timestamps "r" = some (List.replicate 10 0) ∧
    (default_priority stateA "r" 1200).map Prod.fst =
      .ok (max ((1200 - 0) /
            (stateA.config.priority.time_stake_multiplicate * 60)) 1 * 10) :=
  ⟨by decide,
   (default_priority_spec stateA "r" 1200).2.2.2 msA 10 (List.replicate 10 0)
     0 rfl (by decide) (by decide) (by decide) (by decide) (by decide)
     (by norm_num [stateA, testConfig])⟩

/-- C5 (refuting evaluation): for an unregistered caller (here: no
megastring at all) `default_priority` returns via the early `return` on
line 46 of `nimminers/lib/priority.py` without calling
`record_request_timestamps`, so after the call the caller still has no
history entry at all — the tracker did not record the request. -/
theorem default_priority_skips_record_for_unregistered :
    (default_priority stateNoSnapshot "c" 7).map
      (fun r => (r.2.request_timestamps "c").isSome) = .ok false := by
  rfl

/-- C5 (amended): the Rolling Timestamp Tracker records the request's
arrival time exactly for registered callers: whenever `default_priority`
returns normally and the caller is registered in the present megastring,
the caller's history afterwards exists and ends with the current time;
for an unregistered caller (or an absent megastring) the state is
returned unchanged — nothing is recorded. -/
theorem default_priority_recording (s : MinerState) (hotkey : Identity)
    (now p : ℚ) (s' : MinerState)
    (h : default_priority s hotkey now = .ok (p, s')) :
    ((∃ m, s.megastring = some m ∧ hotkey ∈ m.hotkeys) →
      ∃ history, s'.request_timestamps hotkey = some history ∧
        history.getLast? = some now) ∧
    ((¬ ∃ m, s.megastring = some m ∧ hotkey ∈ m.hotkeys) → s' = s) := by
  constructor
  · rintro ⟨m, hm, hmem⟩
    unfold default_priority at h
    simp only [hm] at h
    rw [if_neg (by simp [hmem])] at h
    cases hst : m.S[m.hotkeys.indexOf hotkey]? with
    | none => simp [hst] at h
    | some stake_amount =>
      simp only [hst] at h
      cases hts : s.request_timestamps hotkey with
      | none =>
        simp only [hts, Except.ok.injEq, Prod.mk.injEq] at h
        rw [← h.2]
        exact record_request_timestamps_getLast s hotkey now
      | some history =>
        simp only [hts] at h
        by_cases hlen : history.length < 10
        · rw [if_pos hlen] at h; exact absurd h (by simp)
        · rw [if_neg hlen] at h
          cases ht10 : history[history.length - 10]? with
          | none => simp [ht10] at h
          | some t10 =>
            simp only [ht10] at h
            by_cases hden :
                s.config.priority.time_stake_multiplicate * 60 = 0
            · rw [if_pos hden] at h; exact absurd h (by simp)
            · rw [if_neg hden] at h
              simp only [Except.ok.injEq, Prod.mk.injEq] at h
              rw [← h.2]
              exact record_request_timestamps_getLast s hotkey now
  · intro hnreg
    unfold default_priority at h
    have hreg :
        (match s.megastring with
          | none => false
          | some m => decide (hotkey ∈ m.hotkeys)) = false := by
      cases hms : s.megastring with
      | none => rfl
      | some m =>
        simp only [decide_eq_false_iff_not]
        exact fun hmem => hnreg ⟨m, hms, hmem⟩
    simp only [hreg] at h
    rw [if_pos trivial] at h
    simp only [Except.ok.injEq, Prod.mk.injEq] at h
    exact h.2.symm

/-- Witness for C5's amended theorem: the registered caller `"r"` of
`stateB` (no prior history), scored at time `1200`, afterwards has a
history ending in `1200`. -/
theorem default_priority_recording_witness :
    ∃ history,
      (record_request_timestamps stateB "r" 1200).request_timestamps "r" =
        some history ∧ history.getLast? = some 1200 :=
  (default_priority_recording stateB "r" 1200
      stateB.config.priority.default
      (record_request_timestamps stateB "r" 1200) (by rfl)).1
    ⟨msA, rfl, by decide⟩

/-- Python's `(l + [now])[-n:]` has length `n` when `l` has length `n ≥ 1`. -/
theorem truncate_length (l : List ℚ) (now : ℚ) (n : ℕ) (h1 : 1 ≤ n)
    (hl : l.length = n) :
    (if n = 0 then l ++ [now]
     else (l ++ [now]).drop ((l ++ [now]).length - n)).length = n := by
  rw [if_neg (by omega), List.length_drop]
  simp only [List.length_append, List.length_cons, List.length_nil, hl]
  omega

/-- C7: if every stored history has length `len_request_timestamps` (with
`len_request_timestamps ≥ 1`), then after `record_request_timestamps` —
which creates a missing history as `len_request_timestamps` sentinel
zeros, appends the new timestamp and truncates to the most recent
`len_request_timestamps` entries — every stored history still has length
`len_request_timestamps`; consequently, when
`len_request_timestamps ≥ 10`, the fixed-offset lookbacks `history[0]`
and `history[len − 10]` are in bounds for every stored history. -/
theorem record_request_timestamps_length_invariant (s : MinerState)
    (caller : Identity) (now : ℚ)
    (hN : 1 ≤ s.config.priority.len_request_timestamps)
    (hinv : ∀ k h, s.request_timestamps k = some h →
      h.length = s.config.priority.len_request_timestamps) :
    (∀ k h,
      (record_request_timestamps s caller now).request_timestamps k = some h →
      h.length = s.config.priority.len_request_timestamps) ∧
    (10 ≤ s.config.priority.len_request_timestamps →
      ∀ k h,
        (record_request_timestamps s caller now).request_timestamps k =
          some h →
        0 < h.length ∧ h.length - 10 < h.length) := by
  have hlen : ∀ k h,
      (record_request_timestamps s caller now).request_timestamps k = some h →
      h.length = s.config.priority.len_request_timestamps := by
    intro k h hk
    by_cases hck : k = caller
    · subst hck
      rw [record_request_timestamps_apply s k now] at hk
      injection hk with hk
      subst hk
      apply truncate_length _ now _ hN
      cases hts : s.request_timestamps k with
      | none => simp
      | some h0 => simpa using hinv k h0 hts
    · have hrest :
          (record_request_timestamps s caller now).request_timestamps k =
            s.request_timestamps k := by
        unfold record_request_timestamps
        simp [hck]
      rw [hrest] at hk
      exact hinv k h hk
  refine ⟨hlen, ?_⟩
  intro h10 k h hk
  have := hlen k h hk
  omega

/-- Witness for C7: recording a first timestamp for `"c"` in
`stateNoSnapshot` (no stored histories, `len_request_timestamps = 50`)
yields a history of length `50`, with both fixed-offset lookbacks in
bounds. -/
theorem record_request_timestamps_length_invariant_witness :
    (List.replicate 49 (0 : ℚ) ++ [7]).length = 50 ∧
    (0 < (List.replicate 49 (0 : ℚ) ++ [7]).length ∧
      (List.replicate 49 (0 : ℚ) ++ [7]).length - 10 <
        (List.replicate 49 (0 : ℚ) ++ [7]).length) :=
  have spec := record_request_timestamps_length_invariant stateNoSnapshot "c" 7
    (by decide) (fun k h hk => nomatch hk)
  ⟨spec.1 "c" (List.replicate 49 (0 : ℚ) ++ [7]) (by decide),
   spec.2 (by decide) "c" (List.replicate 49 (0 : ℚ) ++ [7]) (by decide)⟩

/-- C8: provided the earlier checks fall through (not whitelisted, not
blacklisted, registration passes, `force_validator_permit` off), the
rate-limit step accepts whenever no history exists or
`now − history[0] ≥ min_request_period * 60`; in particular a sentinel
oldest entry (`history[0] = 0`) never causes a rejection once `now` is at
least the window, so an identity with fewer than `len_request_timestamps`
real requests is not rate-limited off sentinel history. -/
theorem default_blacklist_rate_limit (s : MinerState) (hotkey : Identity)
    (now : ℚ)
    (hw : hotkey ∉ s.config.blacklist.whitelist)
    (hb : hotkey ∉ s.config.blacklist.blacklist)
    (hfv : s.config.blacklist.force_validator_permit = false)
    (hreach : s.config.blacklist.allow_non_registered = true ∨
      s.megastring = none ∨
      ∃ m, s.megastring = some m ∧ hotkey ∈ m.hotkeys) :
    (s.request_timestamps hotkey = none →
      default_blacklist s hotkey now = .ok (false, "passed blacklist")) ∧
    (∀ history oldest, s.request_timestamps hotkey = some history →
      history[0]? = some oldest →
      ¬ now - oldest < s.config.blacklist.min_request_period * 60 →
      default_blacklist s hotkey now = .ok (false, "passed blacklist")) ∧
    (∀ history, s.request_timestamps hotkey = some history →
      history[0]? = some 0 →
      s.config.blacklist.min_request_period * 60 ≤ now →
      default_blacklist s hotkey now = .ok (false, "passed blacklist")) := by
  have hred : default_blacklist s hotkey now =
      default_blacklist_period s hotkey now := by
    unfold default_blacklist
    rw [if_neg hw, if_neg hb, if_neg ?hc3, if_neg (by simp [hfv])]
    case hc3 =>
      rcases hreach with hall | hnone | ⟨m, hm, hmem⟩
      · simp [hall]
      · simp [hnone]
      · simp [hm, hmem]
  have haccept : ∀ history oldest,
      s.request_timestamps hotkey = some history →
      history[0]? = some oldest →
      ¬ now - oldest < s.config.blacklist.min_request_period * 60 →
      default_blacklist s hotkey now = .ok (false, "passed blacklist") := by
    intro history oldest hts h0 hlt
    rw [hred]
    unfold default_blacklist_period
    simp only [hts, h0]
    rw [if_neg hlt]
  refine ⟨?_, haccept, ?_⟩
  · intro hts
    rw [hred]
    unfold default_blacklist_period
    simp only [hts]
  · intro history hts h0 hwin
    exact haccept history 0 hts h0 (by simpa using not_lt.mpr hwin)

/-- Witness for C8: the unknown caller `"c"` with no history is accepted,
and the registered caller `"r"` whose oldest entry is the sentinel `0` is
accepted at `now = 1000` (window `5 * 60 = 300`). -/
theorem default_blacklist_rate_limit_witness :
    default_blacklist stateNoSnapshot "c" 5 = .ok (false, "passed blacklist") ∧
    default_blacklist stateA "r" 1000 = .ok (false, "passed blacklist") :=
  ⟨(default_blacklist_rate_limit stateNoSnapshot "c" 5 (by decide) (by decide)
      (by decide) (Or.inl (by decide))).1 (by decide),
   (default_blacklist_rate_limit stateA "r" 1000 (by decide) (by decide)
      (by decide) (Or.inl (by decide))).2.2 (List.replicate 10 0) (by decide)
      (by decide) (by norm_num [stateA, testConfig])⟩

/-- C9: the priority formula `max(period / (mult * 60), 1) * stake` of
`default_priority` is non-decreasing in the stake for a non-negative
stake, and non-decreasing in the elapsed period once the scale reaches
`1` (for a positive multiplier). -/
theorem stake_priority_monotone (period period2 mult stake stake2 : ℚ) :
    (0 ≤ stake → stake ≤ stake2 →
      stake_priority period mult stake ≤ stake_priority period mult stake2) ∧
    (0 < mult → 0 ≤ stake → period ≤ period2 → 1 ≤ period / (mult * 60) →
      stake_priority period mult stake ≤ stake_priority period2 mult stake) := by
  constructor
  · intro _ hss
    exact mul_le_mul_of_nonneg_left hss
      (le_trans zero_le_one (le_max_right _ 1))
  · intro hm hst hpp hscale
    have h60 : (0 : ℚ) < mult * 60 := by positivity
    have hdiv : period / (mult * 60) ≤ period2 / (mult * 60) :=
      (div_le_div_iff_of_pos_right h60).mpr hpp
    unfold stake_priority
    rw [max_eq_left hscale, max_eq_left (le_trans hscale hdiv)]
    exact mul_le_mul_of_nonneg_right hdiv hst

/-- Witness for C9 at concrete values: raising the stake from `5` to `7`
at fixed period `600`, and raising the period from `1200` to `1800`
(scale `2 ≥ 1`) at fixed stake `5`, both raise the priority. -/
theorem stake_priority_monotone_witness :
    stake_priority 600 10 5 ≤ stake_priority 600 10 7 ∧
    stake_priority 1200 10 5 ≤ stake_priority 1800 10 5 :=
  ⟨(stake_priority_monotone 600 600 10 5 7).1 (by norm_num) (by norm_num),
   (stake_priority_monotone 1200 1800 10 5 5).2 (by norm_num) (by norm_num)
     (by norm_num) (by norm_num)⟩

/-- C2: `is_request_in_cache` reports a duplicate exactly when the
fingerprint is already cached; a missed fingerprint is inserted mapped to
the current block; on every call the sweep leaves no entry with
`firstSeenBlock + span < currentBlock`; and once an entry's block
satisfies `firstSeenBlock + span < currentBlock`, the call at that block
purges it, so the next call with the same fingerprint reports it as
new. -/
theorem is_request_in_cache_spec (span current_block : ℕ)
    (cache : List (Fingerprint × ℕ)) (fp : Fingerprint) :
    ((is_request_in_cache span current_block cache fp).1 =
      (lookupFP fp cache).isSome) ∧
    (lookupFP fp cache = none →
      (fp, current_block) ∈ (is_request_in_cache span current_block cache fp).2) ∧
    (∀ e ∈ (is_request_in_cache span current_block cache fp).2,
      ¬ e.2 + span < current_block) ∧
    (∀ b, (cache.map Prod.fst).Nodup → lookupFP fp cache = some b →
      b + span < current_block →
      lookupFP fp (is_request_in_cache span current_block cache fp).2 = none ∧
      ∀ block2,
        (is_request_in_cache span block2
          (is_request_in_cache span current_block cache fp).2 fp).1 = false) := by
  refine ⟨rfl, ?_, ?_, ?_⟩
  · intro hmiss
    unfold is_request_in_cache
    simp only [hmiss, Option.isSome_none, Bool.false_eq_true, if_false,
      List.mem_filter]
    refine ⟨List.mem_append_right _ (List.mem_singleton.mpr rfl), ?_⟩
    simp
  · intro e he
    unfold is_request_in_cache at he
    have := List.of_mem_filter he
    simpa using this
  · intro b hnd hhit hold
    have hcache1 :
        (is_request_in_cache span current_block cache fp).2 =
          cache.filter (fun e => !(decide (e.2 + span < current_block))) := by
      unfold is_request_in_cache
      simp [hhit]
    have hnone :
        lookupFP fp (is_request_in_cache span current_block cache fp).2 = none := by
      rw [hcache1, lookupFP_eq_none_iff]
      intro e he hefp
      have hmem := List.mem_of_mem_filter he
      have hkeep := List.of_mem_filter he
      have : e.2 = b := by
        have : (fp, e.2) ∈ cache := by
          have : e = (fp, e.2) := Prod.ext hefp rfl
          exact this ▸ hmem
        exact lookupFP_nodup_unique fp cache hnd b hhit e.2 this
      rw [this] at hkeep
      simp [hold] at hkeep
    refine ⟨hnone, ?_⟩
    intro block2
    show (lookupFP fp (is_request_in_cache span current_block cache fp).2).isSome
      = false
    rw [hnone]
    rfl

/-- Witness for C2: inserting a fresh fingerprint caches it at the current
block; a stale entry (`1 + 2 < 5`) is reported as a hit at block `5` but
purged by that call's sweep, so the following call reports it as new. -/
theorem is_request_in_cache_spec_witness :
    (lookupFP "b" [("a", 1)] = none ∧
      ("b", 5) ∈ (is_request_in_cache 2 5 [("a", 1)] "b").2) ∧
    (lookupFP "a" (is_request_in_cache 2 5 [("a", 1)] "a").2 = none ∧
      (is_request_in_cache 2 9 (is_request_in_cache 2 5 [("a", 1)] "a").2
        "a").1 = false) :=
  ⟨⟨by decide, (is_request_in_cache_spec 2 5 [("a", 1)] "b").2.1 (by decide)⟩,
   by
    have h := (is_request_in_cache_spec 2 5 [("a", 1)] "a").2.2.2 1 (by decide)
      (by decide) (by decide)
    exact ⟨h.1, h.2 9⟩⟩
